import Mathlib

/-!
# Verification of the single-market-robot-simulator period scheduler and logging pipeline

This file gives a shallow embedding, in Lean 4, of the `Simulation` class of
`single-market-robot-simulator` (src/index.js): its configuration handling
(`constructor` / `initAgents`), the memoized `getMaximumPossibleGainsFromTrade`,
the period-end metric emission (`logPeriod`), the order and trade recorders
(`logOrder` / `logTrade`), the per-period scheduler (`runPeriod`, split here
into its synchronous and real-time branches) and the synchronous driver loop
of `run({sync:true})`.

Numbers (JS `number`) are modelled as `ℚ`; agent ids as `ℕ`.  External
collaborators (the `market-agents` Pool, the `market-example-contingent`
Market and the `simple-isomorphic-logger` Log) are modelled only as far as
this repository's code reads or writes them; where their behaviour decides a
property it is taken from the specification's collaborator contracts, and
each such definition is marked in its doc comment.  The evolution of agents
and of the market book while a period is running is supplied by an explicit
oracle (`PoolRunOracle`), so every theorem quantifies over every possible
behaviour of the external substrate.
-/

/-- A cell of a log row: a JS number, or a string (the order logs pad with
the empty string in the columns of the other side). -/
inductive Cell where
  | num (q : ℚ)
  | str (s : String)
deriving DecidableEq, Repr

/-- Modelled from the spec: the LogSink collaborator (package
`simple-isomorphic-logger`, not part of this repository's src) is an
append-only row writer.  Only the row list is modelled; headers and
file-system persistence are outside the core's contract. -/
structure SimLog where
  rows : List (List Cell)
deriving DecidableEq, Repr

/-- Modelled from the spec: `LogSink.write(row)` appends one row; a call with
an undefined row (the spec's "produces no row (skip, not zero-fill)" for an
empty OHLC) appends nothing.  `none` plays the role of JS `undefined`. -/
def SimLog.write (lg : SimLog) : Option (List Cell) → SimLog
  | none => lg
  | some row => ⟨lg.rows ++ [row]⟩

/-- The log sinks held by a Simulation (`sim.logs`); a `none` field is a log
that was not created (the order logs when `withoutOrderLogs` is set). -/
structure SimLogs where
  trade : Option SimLog
  buyorder : Option SimLog
  sellorder : Option SimLog
  rejectbuyorder : Option SimLog
  rejectsellorder : Option SimLog
  profit : Option SimLog
  ohlc : Option SimLog
  volume : Option SimLog
  effalloc : Option SimLog
deriving DecidableEq, Repr

/-- `if (log) log.write(row)`: write to a log sink when it exists. -/
def writeTo (lg : Option SimLog) (row : Option (List Cell)) : Option SimLog :=
  lg.map (fun l => l.write row)

/-- An agent inventory as read by this core: units of the good X and money. -/
structure Inventory where
  X : ℚ
  money : ℚ
deriving DecidableEq, Repr

/-- The capability set of a `market-agents` agent that this core reads:
identity, inventory, and the marginal value/cost functions evaluated at an
inventory (`unitValueFunction('X', inventory)` / `unitCostFunction`). -/
structure Agent where
  id : ℕ
  inventory : Inventory
  unitValue : Inventory → ℚ
  unitCost : Inventory → ℚ

/-- The `market-agents` Pool as read by this core: the ordered agent list
and the current period number (set by `pool.initPeriod`).  The pool's
internal clock and inventory resets are internal to the external package. -/
structure PoolState where
  agents : List Agent
  periodNumber : ℕ

/-- `pool.initPeriod(n)`: the externally managed per-agent resets are not
modelled; this core only observes the period number change. -/
def PoolState.initPeriod (p : PoolState) (n : ℕ) : PoolState :=
  { p with periodNumber := n }

/-- `pool.agentsById[id]`: identity → agent lookup. -/
def PoolState.agentsById (p : PoolState) (i : ℕ) : Option Agent :=
  p.agents.find? (fun A => A.id == i)

/-- The `market-example-contingent` Market as read by this core: the
id-column index of its order-array layout (`xMarket.o.idCol`) and the order
array `xMarket.a` (only the id column of an order row is ever read, so rows
are kept as lists of ids). -/
structure XMarket where
  idCol : Option ℕ
  a : List (List ℕ)
deriving DecidableEq, Repr

/-- `xMarket.clear()`: discard the current-period book state. -/
def XMarket.clear (m : XMarket) : XMarket :=
  { m with a := [] }

/-- The matching-engine sub-configuration forwarded verbatim to the market
constructor; opaque to this core, kept as a bag of options. -/
structure XMarketConfig where
  options : List (String × ℚ)
deriving DecidableEq, Repr

/-- The configuration object passed to the `Simulation` constructor.
`Option` fields are those a caller may omit (JS `undefined`). -/
structure SimConfig where
  periods : ℕ
  periodDuration : Option ℚ
  buyerAgentType : List String
  sellerAgentType : List String
  buyerRate : Option (List ℚ)
  sellerRate : Option (List ℚ)
  buyerValues : List ℚ
  sellerCosts : List ℚ
  numberOfBuyers : Option ℕ
  numberOfSellers : Option ℕ
  xMarket : XMarketConfig
  integer : Bool
  ignoreBudgetConstraint : Bool
  keepPreviousOrders : Bool
  L : Option ℚ
  H : Option ℚ
  silent : Bool
  withoutOrderLogs : Bool
  realtime : Bool
  logDir : Option String
  logToFileSystem : Bool
deriving DecidableEq, Repr

/-- A preorder/reject event payload (`MEC.ao(orderArray)` already applied:
the order as an object).  `buyPrice`/`sellPrice` are `none` when absent. -/
structure Order where
  t : ℚ
  id : ℕ
  q : ℚ
  buyPrice : Option ℚ
  sellPrice : Option ℚ
deriving DecidableEq, Repr

/-- A trade event payload (`tradespec`) as read by `logTrade`. -/
structure TradeSpec where
  t : ℚ
  totalQ : ℚ
  buyA : List ℕ
  sellA : List ℕ
  prices : List ℚ
deriving DecidableEq, Repr

/-- The mutable state of one `Simulation` instance: the owned configuration,
log sinks, handles to market and pool, the period counter, the per-period
trade-price buffer, the cached period duration and agent counts, the
real-time offset and interval-timer id, and the memoized maximum-gains
scalar (`undefined` before first evaluation). -/
structure SimState where
  config : SimConfig
  logs : SimLogs
  xMarket : XMarket
  pool : PoolState
  period : ℕ
  periodTradePrices : List ℚ
  periodDuration : ℚ
  numberOfBuyers : ℕ
  numberOfSellers : ℕ
  realtime : Option ℚ
  realtimeIntervalId : Option ℕ
  maximumPossibleGainsFromTrade : Option ℚ

/-- JS `x || d` for an optional number: the default applies when the value
is absent (undefined) or zero (falsy). -/
def orDefaultQ : Option ℚ → ℚ → ℚ
  | some q, d => if q = 0 then d else q
  | none, d => d

/-- JS `x || d` for an optional count: zero is falsy. -/
def orDefaultNat : Option ℕ → ℕ → ℕ
  | some n, d => if n = 0 then d else n
  | none, d => d

/-- Modelled from the spec: the external `positive-number-array` dependency
(not part of this repository's src) normalizes its argument to an array of
positive numbers, yielding nothing (undefined) when the input is absent,
empty, or contains a non-positive entry. -/
def positiveNumberArray : Option (List ℚ) → Option (List ℚ)
  | none => none
  | some l => if l ≠ [] ∧ l.all (fun q => 0 < q) then some l else none

/-- `config.numberOfBuyers || config.buyerValues.length` (initAgents). -/
def configNumberOfBuyers (c : SimConfig) : ℕ :=
  orDefaultNat c.numberOfBuyers c.buyerValues.length

/-- `config.numberOfSellers || config.sellerCosts.length` (initAgents). -/
def configNumberOfSellers (c : SimConfig) : ℕ :=
  orDefaultNat c.numberOfSellers c.sellerCosts.length

/-- The effect of `initAgents()` on the caller's config object, plus the
constructor-time error.  The source assigns
`config.buyerRate = positiveNumberArray(config.buyerRate) || [1]` (and the
seller analogue) before the agent-count check throws, so the rate fields are
normalized in place even on the error path. -/
def initAgentsConfig (c : SimConfig) : SimConfig × Option String :=
  let nb := configNumberOfBuyers c
  let ns := configNumberOfSellers c
  let c' := { c with
    buyerRate := some ((positiveNumberArray c.buyerRate).getD [1]),
    sellerRate := some ((positiveNumberArray c.sellerRate).getD [1]) }
  if nb = 0 ∨ ns = 0 then
    (c', some "single-market-robot-simulation: can not determine numberOfBuyers and/or numberOfSellers ")
  else
    (c', none)

/-- `initLogs()`: every log of `logNames` is created, except that the four
order logs are filtered out when `config.withoutOrderLogs` is set. -/
def initLogs (c : SimConfig) : SimLogs :=
  if c.withoutOrderLogs then
    { trade := some ⟨[]⟩, buyorder := none, sellorder := none,
      rejectbuyorder := none, rejectsellorder := none, profit := some ⟨[]⟩,
      ohlc := some ⟨[]⟩, volume := some ⟨[]⟩, effalloc := some ⟨[]⟩ }
  else
    { trade := some ⟨[]⟩, buyorder := some ⟨[]⟩, sellorder := some ⟨[]⟩,
      rejectbuyorder := some ⟨[]⟩, rejectsellorder := some ⟨[]⟩,
      profit := some ⟨[]⟩, ohlc := some ⟨[]⟩, volume := some ⟨[]⟩,
      effalloc := some ⟨[]⟩ }

/-- The `Simulation` constructor.  Agent construction (`newBuyerAgent` /
`newSellerAgent`, via the external factory warehouse) and the market handle
(`new Market(...)`) are supplied by the caller as the already-built
collaborator objects.  `sim.periodDuration` is
`config.periodDuration || 1000` (via the common period settings). -/
def mkSimulation (c : SimConfig) (agents : List Agent) (market : XMarket) : SimState :=
  let c' := (initAgentsConfig c).1
  { config := c',
    logs := initLogs c',
    xMarket := market,
    pool := { agents := agents, periodNumber := 0 },
    period := 0,
    periodTradePrices := [],
    periodDuration := orDefaultQ c.periodDuration 1000,
    numberOfBuyers := configNumberOfBuyers c,
    numberOfSellers := configNumberOfSellers c,
    realtime := none,
    realtimeIntervalId := none,
    maximumPossibleGainsFromTrade := none }

/-- Ascending sort, as the JS comparator `(a,b) => a - b` on a copy. -/
def sortAscending (l : List ℚ) : List ℚ :=
  List.insertionSort (fun a b => a ≤ b) l

/-- Descending sort, as the JS comparator `(a,b) => b - a` on a copy;
value-wise the reverse of the ascending sort. -/
def sortDescending (l : List ℚ) : List ℚ :=
  (List.insertionSort (fun a b => a ≤ b) l).reverse

/-- The pairing loop of `getMaximumPossibleGainsFromTrade`:
`while (i < l && buyerV[i] > sellerC[i]) result += buyerV[i] - sellerC[i]`,
stopping at the first non-profitable pair or the shorter array. -/
def sumProfitablePairs : List ℚ → List ℚ → ℚ
  | v :: vs, c :: cs => if v > c then (v - c) + sumProfitablePairs vs cs else 0
  | _, _ => 0

/-- The body of the maximum-gains computation: sort buyer values high first
and seller costs low first, then add the profitable pairs. -/
def computeMaxGains (values costs : List ℚ) : ℚ :=
  sumProfitablePairs (sortDescending values) (sortAscending costs)

/-- `getMaximumPossibleGainsFromTrade()`: returns the memo field when it is
truthy (present and nonzero — JS `if (sim.maximumPossibleGainsFromTrade)`),
otherwise computes from the current `config.buyerValues`/`sellerCosts` and
stores the result in the memo field.  Returns the value and the updated
simulation state. -/
def getMaximumPossibleGainsFromTrade (sim : SimState) : ℚ × SimState :=
  match sim.maximumPossibleGainsFromTrade with
  | some v =>
    if v ≠ 0 then (v, sim)
    else
      let result := computeMaxGains sim.config.buyerValues sim.config.sellerCosts
      (result, { sim with maximumPossibleGainsFromTrade := some result })
  | none =>
    let result := computeMaxGains sim.config.buyerValues sim.config.sellerCosts
    (result, { sim with maximumPossibleGainsFromTrade := some result })

/-- The inner `ohlc()` helper of `logPeriod`: when the period saw at least
one trade, the row `(period, open, high, low, close)` over the period trade
prices (`Math.max`/`Math.min` of a spread list, as folds); otherwise
undefined. -/
def ohlcRowOf (sim : SimState) : Option (List Cell) :=
  match sim.periodTradePrices with
  | [] => none
  | p :: ps =>
    some [Cell.num sim.period, Cell.num p, Cell.num (ps.foldl max p),
          Cell.num (ps.foldl min p), Cell.num ((p :: ps).getLastD 0)]

/-- `logPeriod()`: write the per-agent money row to `profit`; pass the
`ohlc()` result (possibly undefined) to the `ohlc` sink; write
`(period, volume)` to `volume`; when the `effalloc` log exists, evaluate the
memoized maximum gains (the source's index loop over `finalMoney` computes
its list sum) and write the efficiency row only when that maximum is
positive; finally reset the trade-price buffer. -/
def logPeriod (sim : SimState) : SimState :=
  let finalMoney := sim.pool.agents.map (fun A => A.inventory.money)
  let logs1 := { sim.logs with profit := writeTo sim.logs.profit (some (finalMoney.map Cell.num)) }
  let logs2 := { logs1 with ohlc := writeTo logs1.ohlc (ohlcRowOf sim) }
  let volumeRow : List Cell := [Cell.num sim.period, Cell.num sim.periodTradePrices.length]
  let logs3 := { logs2 with volume := writeTo logs2.volume (some volumeRow) }
  match logs3.effalloc with
  | none => { sim with logs := logs3, periodTradePrices := [] }
  | some _ =>
    let finalMoneySum := finalMoney.sum
    let r := getMaximumPossibleGainsFromTrade sim
    let effRow : List Cell := [Cell.num sim.period, Cell.num (100 * (finalMoneySum / r.1))]
    let logs4 :=
      if 0 < r.1 then { logs3 with effalloc := writeTo logs3.effalloc (some effRow) }
      else logs3
    { r.2 with logs := logs4, periodTradePrices := [] }

/-- The buy-order log addressed by `prefix+'buyorder'`. -/
def getBuyOrderLog (logs : SimLogs) (isReject : Bool) : Option SimLog :=
  if isReject then logs.rejectbuyorder else logs.buyorder

/-- The sell-order log addressed by `prefix+'sellorder'`. -/
def getSellOrderLog (logs : SimLogs) (isReject : Bool) : Option SimLog :=
  if isReject then logs.rejectsellorder else logs.sellorder

/-- Append a row to the addressed buy-order log, when it exists. -/
def writeBuyOrderLog (logs : SimLogs) (isReject : Bool) (row : List Cell) : SimLogs :=
  if isReject then { logs with rejectbuyorder := writeTo logs.rejectbuyorder (some row) }
  else { logs with buyorder := writeTo logs.buyorder (some row) }

/-- Append a row to the addressed sell-order log, when it exists. -/
def writeSellOrderLog (logs : SimLogs) (isReject : Bool) (row : List Cell) : SimLogs :=
  if isReject then { logs with rejectsellorder := writeTo logs.rejectsellorder (some row) }
  else { logs with sellorder := writeTo logs.sellorder (some row) }

/-- `logOrder(prefix, orderArray)`: resolve the submitting agent from
`pool.agentsById`; when the agent resolves, the order carries a truthy buy
price and the addressed buy-order log exists, write the buy row (and
symmetrically for the sell side).  An order satisfying neither condition is
skipped; no branch of the source throws. -/
def logOrder (sim : SimState) (isReject : Bool) (order : Order) : SimState :=
  let agentLookup := sim.pool.agentsById order.id
  let sim1 :=
    match agentLookup, order.buyPrice with
    | some agent, some bp =>
      let buyRow : List Cell :=
        [Cell.num sim.period, Cell.num order.t,
         Cell.num (order.t - sim.period * sim.periodDuration),
         Cell.num order.id, Cell.num agent.inventory.X, Cell.num bp,
         Cell.num (agent.unitValue agent.inventory), Cell.str "", Cell.str ""]
      if bp ≠ 0 ∧ (getBuyOrderLog sim.logs isReject).isSome then
        { sim with logs := writeBuyOrderLog sim.logs isReject buyRow }
      else sim
    | _, _ => sim
  match agentLookup, order.sellPrice with
  | some agent, some sp =>
    let sellRow : List Cell :=
      [Cell.num sim1.period, Cell.num order.t,
       Cell.num (order.t - sim1.period * sim1.periodDuration),
       Cell.num order.id, Cell.num agent.inventory.X, Cell.str "", Cell.str "",
       Cell.num sp, Cell.num (agent.unitCost agent.inventory)]
    if sp ≠ 0 ∧ (getSellOrderLog sim1.logs isReject).isSome then
      { sim1 with logs := writeSellOrderLog sim1.logs isReject sellRow }
    else sim1
  | _, _ => sim1

/-- `sim.xMarket.a[slot][idCol]`: resolve an order-slot index to an agent id
through the market's order array. -/
def lookupMarketId (m : XMarket) (idCol : ℕ) (slot : ℕ) : Option ℕ :=
  (m.a[slot]?).bind (fun row => row[idCol]?)

/-- `logTrade(tradespec)`: validate the market's id column, the single-unit
trade shape (`totalQ === 1`, one buy index, one sell index), the buyer and
seller identities, and a truthy first price; then compute each side's
realized surplus from its own value/cost function and current inventory,
append the price to the trade-price buffer, and write the trade row when the
trade log exists.  Every validation failure is a thrown Error; no state is
mutated before any throw, so the failing result carries the input state
unchanged. -/
def logTrade (sim : SimState) (ts : TradeSpec) : SimState × Option String :=
  match sim.xMarket.idCol with
  | none => (sim, some "Simulation.prototype.logTrade: sim.xMarket.o.idCol is undefined")
  | some idCol =>
    if ts.totalQ ≠ 1 ∨ ts.buyA.length ≠ 1 ∨ ts.sellA.length ≠ 1 then
      (sim, some "Simulation.prototype.logTrade: single unit trades required")
    else
      match ts.buyA.head?.bind (lookupMarketId sim.xMarket idCol) with
      | none => (sim, some "Simulation.prototype.logTrade: buyerid is undefined")
      | some buyerid =>
        match ts.sellA.head?.bind (lookupMarketId sim.xMarket idCol) with
        | none => (sim, some "Simulation.prototype.logTrade: sellerid is undefined")
        | some sellerid =>
          let tradePrice := ts.prices.head?.getD 0
          if tradePrice = 0 then
            (sim, some "Simulation.prototype.logTrade: undefined price in trade ")
          else
            match sim.pool.agentsById buyerid, sim.pool.agentsById sellerid with
            | some buyer, some seller =>
              let tradeBuyerValue := buyer.unitValue buyer.inventory
              let tradeBuyerProfit := tradeBuyerValue - tradePrice
              let tradeSellerCost := seller.unitCost seller.inventory
              let tradeSellerProfit := tradePrice - tradeSellerCost
              let tradeOutput : List Cell :=
                [Cell.num sim.period, Cell.num ts.t,
                 Cell.num (ts.t - sim.period * sim.periodDuration),
                 Cell.num tradePrice, Cell.num buyerid, Cell.num tradeBuyerValue,
                 Cell.num tradeBuyerProfit, Cell.num sellerid,
                 Cell.num tradeSellerCost, Cell.num tradeSellerProfit]
              ({ sim with
                  periodTradePrices := sim.periodTradePrices ++ [tradePrice],
                  logs := { sim.logs with trade := writeTo sim.logs.trade (some tradeOutput) } },
               none)
            | _, _ =>
              (sim, some "Simulation.prototype.logTrade: TypeError: agent for trade is undefined")

/-- `Initializing` of `runPeriod` (every discipline): increment the period
counter, tell the pool to begin the new period, clear the market book.  The
trade-price buffer is NOT reset here — the source resets it only at the end
of `logPeriod`. -/
def beginPeriod (sim : SimState) : SimState :=
  { sim with
      period := sim.period + 1,
      pool := sim.pool.initPeriod (sim.period + 1),
      xMarket := sim.xMarket.clear }

/-- One trade event as emitted by the market while a period is running,
together with the state of the external substrate (the market order array
and the pool's agents) at the moment of emission.  The substrate evolves
outside this core (agents submit orders, `pool.trade` settles), so it is
oracle-supplied per event. -/
structure TradeEvent where
  marketA : List (List ℕ)
  poolAgents : List Agent
  spec : TradeSpec

/-- Oracle for the external substrate during one period run: the trade
events emitted while running period `n`, and the agents (inventories and
money) after `pool.syncRun` and `pool.endPeriod` of period `n`. -/
structure PoolRunOracle where
  events : ℕ → List TradeEvent
  agentsAtEnd : ℕ → List Agent → List Agent

/-- Deliver the period's trade events to `logTrade` in order, installing the
oracle's substrate snapshot before each event; a thrown trade error aborts
the run and propagates. -/
def processTrades : SimState → List TradeEvent → SimState × Option String
  | sim, [] => (sim, none)
  | sim, e :: rest =>
    let simE := { sim with
        xMarket := { sim.xMarket with a := e.marketA },
        pool := { sim.pool with agents := e.poolAgents } }
    match logTrade simE e.spec with
    | (s', none) => processTrades s' rest
    | (s', some err) => (s', some err)

/-- `runPeriod` with a truthy `sync` argument: begin the period, run the
pool to its end time (delivering the trade events), then `atEndOfPeriod`:
`pool.endPeriod()` (final agent settlement, oracle-supplied) followed by
`logPeriod()`.  A trade-invariant error thrown during the run propagates to
the caller with the state as already mutated. -/
def runPeriodSync (O : PoolRunOracle) (sim : SimState) : SimState × Option String :=
  let sim1 := beginPeriod sim
  match processTrades sim1 (O.events sim1.period) with
  | (s2, some e) => (s2, some e)
  | (s2, none) =>
    let s3 := { s2 with pool := { s2.pool with agents := O.agentsAtEnd s2.period s2.pool.agents } }
    (logPeriod s3, none)

/-- The wall-clock inputs consumed when `runPeriod` starts a real-time
period: `Date.now()/1000`, the pool's period start time
(`pool.agents[0].period.startTime`), the pool's `endTime()`, and the timer
id that `setInterval` would return. -/
structure RealtimeEnv where
  now : ℚ
  periodStartTime : ℚ
  endTime : ℚ
  intervalId : ℕ
deriving DecidableEq, Repr

/-- Outcome of starting a real-time period: the returned promise is either
immediately rejected, or left pending with the poll timer installed. -/
inductive RealtimeOutcome where
  | rejected (msg : String)
  | polling
deriving DecidableEq, Repr

/-- `runPeriod` with falsy `sync` and `config.realtime` set, up to the point
where the poll timer is installed (the subsequent wall-clock ticks are
outside the deterministic core).  The source increments the period, inits
the pool and clears the market BEFORE the promise executor runs its guard:
a stale `realtimeIntervalId` then rejects (after `clearInterval`, which
leaves the field itself in place); next a falsy pool end time rejects; and
otherwise the real-time offset is stored and the interval timer installed. -/
def runPeriodRealtime (env : RealtimeEnv) (sim : SimState) : SimState × RealtimeOutcome :=
  let sim1 := beginPeriod sim
  if sim1.realtimeIntervalId.isSome then
    (sim1, RealtimeOutcome.rejected "sim has unexpected realtimeIntervalId")
  else
    let sim2 := { sim1 with realtime := some (env.now - env.periodStartTime) }
    if env.endTime = 0 then
      (sim2, RealtimeOutcome.rejected "period endTime required for onRealtimeWake")
    else
      ({ sim2 with realtimeIntervalId := some env.intervalId }, RealtimeOutcome.polling)

/-- The while loop of `run({sync:true})`:
`while (sim.period < config.periods) sim.runPeriod({sync:true})` (the
`update` option is undefined on this call shape and therefore skipped).
The loop is written on an explicit iteration budget so that it stays
structurally recursive; `runSyncLoop` supplies the budget
`config.periods - period`, and the theorems below show this budget is
exact, because every completed `runPeriod` advances the counter by exactly
one (`runSyncFuel_fuel_adequate`).  Alongside the final state, the value of
the period counter after each driven `runPeriod` call is returned as a
trace, and the third component is the error that aborted the loop, if any. -/
def runSyncFuel (O : PoolRunOracle) : ℕ → SimState → SimState × List ℕ × Option String
  | 0, sim => (sim, [], none)
  | Nat.succ fuel, sim =>
    if sim.period < sim.config.periods then
      match runPeriodSync O sim with
      | (s', some e) => (s', [s'.period], some e)
      | (s', none) =>
        let r := runSyncFuel O fuel s'
        (r.1, s'.period :: r.2.1, r.2.2)
    else (sim, [], none)

/-- `run({sync:true})`, driving the synchronous while loop to completion. -/
def runSyncLoop (O : PoolRunOracle) (sim : SimState) : SimState × List ℕ × Option String :=
  runSyncFuel O (sim.config.periods - sim.period) sim

/-- The options object of `run({sync, update, delay} = {...})` after
destructuring: each field is `none` when the property is absent from the
passed object (JS `undefined`). -/
structure RunOptions where
  sync : Option Bool
  update : Option (SimState → SimState)
  delay : Option ℚ

/-- The documented default options of `run`:
`{sync:false, update: (s)=>(s), delay: 20}`. -/
def runDefaults : RunOptions :=
  { sync := some false, update := some (fun s => s), delay := some 20 }

/-- ES2015 default-parameter semantics of `run`'s signature: the default
object is substituted only when the argument itself is undefined; any passed
object, however partial, is destructured as-is. -/
def resolveRunOptions : Option RunOptions → RunOptions
  | none => runDefaults
  | some o => o

/-- The per-period callback step of `run`'s sync loop:
`if (typeof update === 'function') update(sim)` — an undefined `update` is
skipped. -/
def applyUpdate : Option (SimState → SimState) → SimState → SimState
  | some f, sim => f sim
  | none, sim => sim

/-- The second argument of `setTimeout(loop, delay)` in `run`'s async loop:
exactly the destructured `delay` field, with no further defaulting. -/
def interPeriodDelay (o : RunOptions) : Option ℚ :=
  o.delay

/-- A small valid configuration used by the concrete test instances. -/
def baseConfig : SimConfig :=
  { periods := 3, periodDuration := some 1,
    buyerAgentType := ["ZIAgent"], sellerAgentType := ["ZIAgent"],
    buyerRate := some [1], sellerRate := some [1],
    buyerValues := [80], sellerCosts := [20],
    numberOfBuyers := none, numberOfSellers := none,
    xMarket := ⟨[]⟩, integer := false, ignoreBudgetConstraint := false,
    keepPreviousOrders := false, L := some 0, H := some 100,
    silent := true, withoutOrderLogs := false, realtime := false,
    logDir := none, logToFileSystem := false }

/-- A market handle with id column 0 and an empty order array. -/
def emptyMarket : XMarket := ⟨some 0, []⟩

/-- A freshly constructed simulation over `baseConfig` with no agents. -/
def baseSim : SimState := mkSimulation baseConfig [] emptyMarket

/-- A trivial substrate oracle: no trades, agents unchanged. -/
def quietOracle : PoolRunOracle := ⟨fun _ => [], fun _ a => a⟩

/-- A real-time simulation mid-run: period 5 already has a recorded trade
price and a still-active poll timer (id 1). -/
def rtBusySim : SimState :=
  { baseSim with
      config := { baseConfig with realtime := true },
      period := 5,
      periodTradePrices := [50],
      realtimeIntervalId := some 1 }

/-- Wall-clock inputs for the real-time test instance. -/
def rtEnv : RealtimeEnv := ⟨100, 95, 101, 7⟩

/-- A trade event reporting `totalQ = 2`. -/
def twoUnitTrade : TradeSpec :=
  { t := 1, totalQ := 2, buyA := [0], sellA := [0], prices := [50] }

/-- Configuration whose maximum gains from trade are zero (no profitable
pair: the single buyer value 1 is below the single seller cost 5). -/
def zeroGainsConfig : SimConfig :=
  { baseConfig with buyerValues := [1], sellerCosts := [5] }

/-- A fresh simulation over `zeroGainsConfig`. -/
def zeroGainsSim : SimState := mkSimulation zeroGainsConfig [] emptyMarket

/-- `zeroGainsConfig` mutated after construction: the buyer value is raised
to 10, making the (recomputed) maximum gains 5. -/
def mutatedGainsConfig : SimConfig :=
  { zeroGainsConfig with buyerValues := [10] }

/-- A configuration with the `buyerRate` property absent. -/
def noRateConfig : SimConfig :=
  { baseConfig with buyerRate := none }

/-- A buyer agent: id 10, empty inventory with 30 money, marginal value 80. -/
def buyerTen : Agent := ⟨10, ⟨0, 30⟩, fun _ => 80, fun _ => 0⟩

/-- A seller agent: id 20, empty inventory with 30 money, marginal cost 20. -/
def sellerTwenty : Agent := ⟨20, ⟨0, 30⟩, fun _ => 0, fun _ => 20⟩

/-- A simulation in period 3 with two agents and two booked orders whose id
column resolves slot 0 to the buyer and slot 1 to the seller. -/
def tradingSim : SimState :=
  { baseSim with
      period := 3,
      periodDuration := 1,
      pool := ⟨[buyerTen, sellerTwenty], 3⟩,
      xMarket := ⟨some 0, [[10], [20]]⟩ }

/-- A single-unit trade at price 50 between slot 0 (buyer) and slot 1
(seller) at time 4 of period 3. -/
def unitTrade : TradeSpec :=
  { t := 4, totalQ := 1, buyA := [0], sellA := [1], prices := [50] }

/-- A simulation at the end of a period that saw trades at 50, 30, 70. -/
def pricedSim : SimState :=
  { tradingSim with period := 2, periodTradePrices := [50, 30, 70] }

/-- A simulation at the end of a period with no trades. -/
def quietPeriodSim : SimState :=
  { tradingSim with period := 2, periodTradePrices := [] }

/-- A buy order from an agent id (99) that no pool member carries. -/
def strangerOrder : Order :=
  { t := 1, id := 99, q := 1, buyPrice := some 50, sellPrice := none }

/-! ## Helper lemmas -/

/-- Both branches of `initAgents` leave the same normalized config. -/
theorem initAgentsConfig_fst (c : SimConfig) :
    (initAgentsConfig c).1 =
      { c with
        buyerRate := some ((positiveNumberArray c.buyerRate).getD [1]),
        sellerRate := some ((positiveNumberArray c.sellerRate).getD [1]) } := by
  unfold initAgentsConfig
  dsimp only
  split <;> rfl

/-- `logTrade` never touches the period counter or the configuration. -/
theorem logTrade_preserves (sim : SimState) (ts : TradeSpec) :
    (logTrade sim ts).1.period = sim.period ∧ (logTrade sim ts).1.config = sim.config := by
  unfold logTrade
  dsimp only
  repeat' split
  all_goals exact ⟨rfl, rfl⟩

/-- `processTrades` never touches the period counter or the configuration. -/
theorem processTrades_preserves (evs : List TradeEvent) :
    ∀ sim : SimState,
      (processTrades sim evs).1.period = sim.period ∧
      (processTrades sim evs).1.config = sim.config := by
  induction evs with
  | nil => intro sim; exact ⟨rfl, rfl⟩
  | cons e rest ih =>
    intro sim
    unfold processTrades
    dsimp only
    rcases h : logTrade { sim with
        xMarket := { sim.xMarket with a := e.marketA },
        pool := { sim.pool with agents := e.poolAgents } } e.spec with ⟨s', err⟩
    have hpres := logTrade_preserves { sim with
        xMarket := { sim.xMarket with a := e.marketA },
        pool := { sim.pool with agents := e.poolAgents } } e.spec
    rw [h] at hpres
    cases err with
    | none =>
      dsimp only
      have hrec := ih s'
      exact ⟨hrec.1.trans hpres.1, hrec.2.trans hpres.2⟩
    | some msg => exact hpres

/-- The memoizing getter never touches anything but the memo field. -/
theorem getMaxGains_preserves (sim : SimState) :
    (getMaximumPossibleGainsFromTrade sim).2.period = sim.period ∧
    (getMaximumPossibleGainsFromTrade sim).2.config = sim.config ∧
    (getMaximumPossibleGainsFromTrade sim).2.logs = sim.logs ∧
    (getMaximumPossibleGainsFromTrade sim).2.pool = sim.pool ∧
    (getMaximumPossibleGainsFromTrade sim).2.periodTradePrices = sim.periodTradePrices := by
  unfold getMaximumPossibleGainsFromTrade
  repeat' split
  all_goals exact ⟨rfl, rfl, rfl, rfl, rfl⟩

/-- `logPeriod` never touches the period counter or the configuration. -/
theorem logPeriod_preserves (sim : SimState) :
    (logPeriod sim).period = sim.period ∧ (logPeriod sim).config = sim.config := by
  unfold logPeriod
  dsimp only
  split
  · exact ⟨rfl, rfl⟩
  · have h := getMaxGains_preserves sim
    split <;> exact ⟨h.1, h.2.1⟩

/-- One synchronous `runPeriod` advances the period counter by exactly one. -/
theorem runPeriodSync_period (O : PoolRunOracle) (sim : SimState) :
    (runPeriodSync O sim).1.period = sim.period + 1 := by
  unfold runPeriodSync
  dsimp only
  rcases h : processTrades (beginPeriod sim) (O.events (beginPeriod sim).period) with ⟨s2, err⟩
  have hpt := processTrades_preserves (O.events (beginPeriod sim).period) (beginPeriod sim)
  rw [h] at hpt
  have hbp : (beginPeriod sim).period = sim.period + 1 := rfl
  cases err with
  | none =>
    dsimp only
    have hlp := logPeriod_preserves { s2 with
      pool := { s2.pool with agents := O.agentsAtEnd s2.period s2.pool.agents } }
    exact hlp.1.trans (hpt.1.trans hbp)
  | some msg => exact hpt.1.trans hbp

/-- One synchronous `runPeriod` leaves the configuration unchanged. -/
theorem runPeriodSync_config (O : PoolRunOracle) (sim : SimState) :
    (runPeriodSync O sim).1.config = sim.config := by
  unfold runPeriodSync
  dsimp only
  rcases h : processTrades (beginPeriod sim) (O.events (beginPeriod sim).period) with ⟨s2, err⟩
  have hpt := processTrades_preserves (O.events (beginPeriod sim).period) (beginPeriod sim)
  rw [h] at hpt
  cases err with
  | none =>
    dsimp only
    have hlp := logPeriod_preserves { s2 with
      pool := { s2.pool with agents := O.agentsAtEnd s2.period s2.pool.agents } }
    exact hlp.2.trans hpt.2
  | some msg => exact hpt.2

/-- The while loop of `run({sync:true})` with an adequate iteration budget:
if it finishes without a thrown error, the final period counter equals the
configured period count and the counter took exactly the values
`period+1, period+2, ...` in order, one per completed period. -/
theorem runSyncFuel_ok (O : PoolRunOracle) :
    ∀ (n : ℕ) (sim : SimState),
      sim.config.periods - sim.period = n →
      sim.period ≤ sim.config.periods →
      (runSyncFuel O n sim).2.2 = none →
      (runSyncFuel O n sim).1.period = sim.config.periods ∧
      (runSyncFuel O n sim).2.1 = List.range' (sim.period + 1) n := by
  intro n
  induction n with
  | zero =>
    intro sim hn hle _
    simp only [runSyncFuel]
    exact ⟨by omega, rfl⟩
  | succ k ih =>
    intro sim hn hle hok
    have hlt : sim.period < sim.config.periods := by omega
    rcases h : runPeriodSync O sim with ⟨s', err⟩
    have hp : s'.period = sim.period + 1 := by
      have hh := runPeriodSync_period O sim; rw [h] at hh; exact hh
    have hcfg : s'.config = sim.config := by
      have hh := runPeriodSync_config O sim; rw [h] at hh; exact hh
    cases err with
    | some e =>
      simp only [runSyncFuel, if_pos hlt, h] at hok
      exact Option.noConfusion hok
    | none =>
      simp only [runSyncFuel, if_pos hlt, h] at hok ⊢
      have hrec := ih s' (by rw [hcfg, hp]; omega) (by rw [hcfg, hp]; omega) hok
      refine ⟨hrec.1.trans (by rw [hcfg]), ?_⟩
      rw [hrec.2, List.range'_succ, hp]

/-- Sorting with the value comparator is invariant under permutation of the
input. -/
theorem insertionSort_perm_invariant (l l' : List ℚ) (h : l.Perm l') :
    List.insertionSort (fun a b => a ≤ b) l = List.insertionSort (fun a b => a ≤ b) l' := by
  refine List.eq_of_perm_of_sorted ?_ (List.sorted_insertionSort _ l) (List.sorted_insertionSort _ l')
  exact (List.perm_insertionSort _ l).trans (h.trans (List.perm_insertionSort _ l').symm)

/-- `Math.max(...prices)` (as a fold) picks an element of the list. -/
theorem foldl_max_mem (p : ℚ) (ps : List ℚ) : ps.foldl max p ∈ p :: ps := by
  induction ps generalizing p with
  | nil => exact List.mem_singleton_self p
  | cons q qs ih =>
    have h := ih (max p q)
    simp only [List.foldl_cons]
    rcases List.mem_cons.mp h with h1 | h2
    · rcases max_choice p q with hc | hc
      · rw [h1, hc]; exact List.mem_cons_self _ _
      · rw [h1, hc]; exact List.mem_cons_of_mem _ (List.mem_cons_self _ _)
    · exact List.mem_cons_of_mem _ (List.mem_cons_of_mem _ h2)

/-- `Math.max(...prices)` (as a fold) bounds every element of the list. -/
theorem le_foldl_max (p : ℚ) (ps : List ℚ) : ∀ x ∈ p :: ps, x ≤ ps.foldl max p := by
  induction ps generalizing p with
  | nil =>
    intro x hx
    rw [List.mem_singleton] at hx
    exact le_of_eq hx
  | cons q qs ih =>
    intro x hx
    simp only [List.foldl_cons]
    rcases List.mem_cons.mp hx with rfl | hx'
    · exact le_trans (le_max_left x q) (ih (max x q) (max x q) (List.mem_cons_self _ _))
    · rcases List.mem_cons.mp hx' with rfl | hx''
      · exact le_trans (le_max_right p x) (ih (max p x) (max p x) (List.mem_cons_self _ _))
      · exact ih (max p q) x (List.mem_cons_of_mem _ hx'')

/-- `Math.min(...prices)` (as a fold) picks an element of the list. -/
theorem foldl_min_mem (p : ℚ) (ps : List ℚ) : ps.foldl min p ∈ p :: ps := by
  induction ps generalizing p with
  | nil => exact List.mem_singleton_self p
  | cons q qs ih =>
    have h := ih (min p q)
    simp only [List.foldl_cons]
    rcases List.mem_cons.mp h with h1 | h2
    · rcases min_choice p q with hc | hc
      · rw [h1, hc]; exact List.mem_cons_self _ _
      · rw [h1, hc]; exact List.mem_cons_of_mem _ (List.mem_cons_self _ _)
    · exact List.mem_cons_of_mem _ (List.mem_cons_of_mem _ h2)

/-- `Math.min(...prices)` (as a fold) is a lower bound of the list. -/
theorem foldl_min_le (p : ℚ) (ps : List ℚ) : ∀ x ∈ p :: ps, ps.foldl min p ≤ x := by
  induction ps generalizing p with
  | nil =>
    intro x hx
    rw [List.mem_singleton] at hx
    exact le_of_eq hx.symm
  | cons q qs ih =>
    intro x hx
    simp only [List.foldl_cons]
    rcases List.mem_cons.mp hx with rfl | hx'
    · exact le_trans (ih (min x q) (min x q) (List.mem_cons_self _ _)) (min_le_left x q)
    · rcases List.mem_cons.mp hx' with rfl | hx''
      · exact le_trans (ih (min p x) (min p x) (List.mem_cons_self _ _)) (min_le_right p x)
      · exact ih (min p q) x (List.mem_cons_of_mem _ hx'')

/-! ## Claim theorems -/

/-- C10: the documented defaults `{sync:false, update: identity, delay:20}`
of `run` apply only when `run` is called with no argument at all; a partial
options object such as `{sync:false}` is destructured as-is, leaving
`update` and `delay` undefined, so the per-period update callback is skipped
and `setTimeout` receives an undefined delay rather than 20. -/
theorem run_defaults_only_when_argument_absent :
    resolveRunOptions none = runDefaults ∧
    runDefaults.delay = some 20 ∧
    (∀ o : RunOptions, resolveRunOptions (some o) = o) ∧
    interPeriodDelay (resolveRunOptions (some ⟨some false, none, none⟩)) = none ∧
    (∀ sim : SimState,
      applyUpdate (resolveRunOptions (some ⟨some false, none, none⟩)).update sim = sim) :=
  ⟨rfl, rfl, fun _ => rfl, rfl, fun _ => rfl⟩

/-- C9: a preorder or reject event whose submitting agent cannot be resolved
from `agentsById`, or whose order carries no usable (truthy) buy or sell
price, is silently skipped by `logOrder`: no row is written, no error is
raised, and the simulation state is unchanged. -/
theorem logOrder_silently_skips (sim : SimState) (isReject : Bool) (order : Order)
    (h : sim.pool.agentsById order.id = none ∨
         (order.buyPrice.getD 0 = 0 ∧ order.sellPrice.getD 0 = 0)) :
    logOrder sim isReject order = sim := by
  unfold logOrder
  rcases h with hagent | ⟨hb, hs⟩
  · rw [hagent]
  · rcases ha : sim.pool.agentsById order.id with _ | agent
    · rfl
    · rcases hbp : order.buyPrice with _ | bp
      · rcases hsp : order.sellPrice with _ | sp
        · rfl
        · rw [hsp] at hs
          simp only [Option.getD_some] at hs
          dsimp only
          rw [if_neg (by simp [hs])]
      · rw [hbp] at hb
        simp only [Option.getD_some] at hb
        dsimp only
        rw [if_neg (by simp [hb])]
        rcases hsp : order.sellPrice with _ | sp
        · rfl
        · rw [hsp] at hs
          simp only [Option.getD_some] at hs
          dsimp only
          rw [if_neg (by simp [hs])]

/-- C9 witness: an order from agent id 99, which no pool member carries, is
skipped without error. -/
theorem logOrder_silently_skips_witness :
    baseSim.pool.agentsById strangerOrder.id = none ∧
    logOrder baseSim false strangerOrder = baseSim :=
  ⟨rfl, logOrder_silently_skips baseSim false strangerOrder (Or.inl rfl)⟩

/-- C4 (amended): construction leaves every configuration field untouched
EXCEPT `buyerRate` and `sellerRate`, which `initAgents` normalizes in place
(`config.buyerRate = positiveNumberArray(config.buyerRate) || [1]`, and the
seller analogue); running periods (synchronously or starting a real-time
period) never mutates the configuration. -/
theorem constructor_normalizes_only_rate_arrays (c : SimConfig) (O : PoolRunOracle)
    (env : RealtimeEnv) (sim : SimState) :
    (initAgentsConfig c).1.periods = c.periods ∧
    (initAgentsConfig c).1.periodDuration = c.periodDuration ∧
    (initAgentsConfig c).1.buyerAgentType = c.buyerAgentType ∧
    (initAgentsConfig c).1.sellerAgentType = c.sellerAgentType ∧
    (initAgentsConfig c).1.buyerValues = c.buyerValues ∧
    (initAgentsConfig c).1.sellerCosts = c.sellerCosts ∧
    (initAgentsConfig c).1.numberOfBuyers = c.numberOfBuyers ∧
    (initAgentsConfig c).1.numberOfSellers = c.numberOfSellers ∧
    (initAgentsConfig c).1.xMarket = c.xMarket ∧
    (initAgentsConfig c).1.L = c.L ∧
    (initAgentsConfig c).1.H = c.H ∧
    (initAgentsConfig c).1.integer = c.integer ∧
    (initAgentsConfig c).1.ignoreBudgetConstraint = c.ignoreBudgetConstraint ∧
    (initAgentsConfig c).1.keepPreviousOrders = c.keepPreviousOrders ∧
    (initAgentsConfig c).1.silent = c.silent ∧
    (initAgentsConfig c).1.withoutOrderLogs = c.withoutOrderLogs ∧
    (initAgentsConfig c).1.realtime = c.realtime ∧
    (initAgentsConfig c).1.logDir = c.logDir ∧
    (initAgentsConfig c).1.logToFileSystem = c.logToFileSystem ∧
    (initAgentsConfig c).1.buyerRate = some ((positiveNumberArray c.buyerRate).getD [1]) ∧
    (initAgentsConfig c).1.sellerRate = some ((positiveNumberArray c.sellerRate).getD [1]) ∧
    (runPeriodSync O sim).1.config = sim.config ∧
    (runPeriodRealtime env sim).1.config = sim.config ∧
    (logPeriod sim).config = sim.config := by
  rw [initAgentsConfig_fst c]
  refine ⟨rfl, rfl, rfl, rfl, rfl, rfl, rfl, rfl, rfl, rfl, rfl, rfl, rfl, rfl, rfl, rfl,
    rfl, rfl, rfl, rfl, rfl, runPeriodSync_config O sim, ?_, (logPeriod_preserves sim).2⟩
  unfold runPeriodRealtime
  dsimp only
  split
  · rfl
  · split <;> rfl

/-- C4 counterexample: constructing over a configuration with no `buyerRate`
property overwrites that field of the caller's config object with `[1]`, so
the config object is NOT immutable under construction. -/
theorem config_buyerRate_mutation_counterexample :
    noRateConfig.buyerRate = none ∧
    (initAgentsConfig noRateConfig).1.buyerRate = some [1] ∧
    (initAgentsConfig noRateConfig).1.buyerRate ≠ noRateConfig.buyerRate := by
  refine ⟨rfl, ?_, ?_⟩ <;> decide

/-- C1 (amended): calling `runPeriod` in real-time mode while a previous
real-time period's interval timer is still active rejects with
"sim has unexpected realtimeIntervalId" and leaves the PriceSequence
(`periodTradePrices`) unchanged — but only AFTER the period counter has
already been incremented by one (and the pool told to begin the new period
and the market book cleared), because the source increments
`sim.period` before the promise executor runs the guard. -/
theorem runPeriodRealtime_guard_rejects (sim : SimState) (env : RealtimeEnv)
    (_hrt : sim.config.realtime = true)
    (hbusy : sim.realtimeIntervalId.isSome = true) :
    (runPeriodRealtime env sim).2 =
      RealtimeOutcome.rejected "sim has unexpected realtimeIntervalId" ∧
    (runPeriodRealtime env sim).1.periodTradePrices = sim.periodTradePrices ∧
    (runPeriodRealtime env sim).1.realtimeIntervalId = sim.realtimeIntervalId ∧
    (runPeriodRealtime env sim).1.period = sim.period + 1 := by
  have hb2 : (beginPeriod sim).realtimeIntervalId.isSome = true := hbusy
  unfold runPeriodRealtime
  rw [if_pos hb2]
  exact ⟨rfl, rfl, rfl, rfl⟩

/-- C1 witness: the guard fires on the concrete busy real-time simulation. -/
theorem runPeriodRealtime_guard_rejects_witness :
    rtBusySim.config.realtime = true ∧
    rtBusySim.realtimeIntervalId.isSome = true ∧
    ((runPeriodRealtime rtEnv rtBusySim).2 =
        RealtimeOutcome.rejected "sim has unexpected realtimeIntervalId" ∧
      (runPeriodRealtime rtEnv rtBusySim).1.periodTradePrices = rtBusySim.periodTradePrices ∧
      (runPeriodRealtime rtEnv rtBusySim).1.realtimeIntervalId = rtBusySim.realtimeIntervalId ∧
      (runPeriodRealtime rtEnv rtBusySim).1.period = rtBusySim.period + 1) :=
  ⟨rfl, rfl, runPeriodRealtime_guard_rejects rtBusySim rtEnv rfl rfl⟩

/-- C1 counterexample: on a real-time simulation in period 5 with an active
timer, the guarded `runPeriod` call does reject, but the period counter is 6
afterwards — it does NOT stay at its pre-call value 5, contradicting the
claim that the Period counter is left unchanged. -/
theorem runPeriodRealtime_period_advances_counterexample :
    rtBusySim.config.realtime = true ∧
    rtBusySim.realtimeIntervalId = some 1 ∧
    rtBusySim.period = 5 ∧
    (runPeriodRealtime rtEnv rtBusySim).2 =
      RealtimeOutcome.rejected "sim has unexpected realtimeIntervalId" ∧
    (runPeriodRealtime rtEnv rtBusySim).1.period = 6 ∧
    (runPeriodRealtime rtEnv rtBusySim).1.period ≠ rtBusySim.period :=
  ⟨rfl, rfl, rfl, rfl, rfl, by decide⟩

/-- C2: a trade event whose `totalQ` is not 1, or whose `buyA` or `sellA`
index list does not have exactly one element, or whose first price is
missing or zero, makes `logTrade` throw a fatal error, and the trade's
price is not appended to the PriceSequence (`periodTradePrices` is exactly
as before the call). -/
theorem logTrade_invalid_trade_rejected (sim : SimState) (ts : TradeSpec)
    (h : ts.totalQ ≠ 1 ∨ ts.buyA.length ≠ 1 ∨ ts.sellA.length ≠ 1 ∨
         ts.prices.head?.getD 0 = 0) :
    (logTrade sim ts).2.isSome = true ∧
    (logTrade sim ts).1.periodTradePrices = sim.periodTradePrices := by
  unfold logTrade
  split
  · exact ⟨rfl, rfl⟩
  · dsimp only
    split
    · exact ⟨rfl, rfl⟩
    · rename_i hshape
      push_neg at hshape
      have hp : ts.prices.head?.getD 0 = 0 := by
        rcases h with h1 | h2 | h3 | h4
        · exact absurd h1 (not_not.mpr hshape.1)
        · exact absurd h2 (not_not.mpr hshape.2.1)
        · exact absurd h3 (not_not.mpr hshape.2.2)
        · exact h4
      split
      · exact ⟨rfl, rfl⟩
      · split
        · exact ⟨rfl, rfl⟩
        · rw [if_pos hp]
          exact ⟨rfl, rfl⟩

/-- C2 witness: a trade event reporting `totalQ = 2` raises and appends
nothing. -/
theorem logTrade_invalid_trade_rejected_witness :
    twoUnitTrade.totalQ = 2 ∧
    (logTrade baseSim twoUnitTrade).2.isSome = true ∧
    (logTrade baseSim twoUnitTrade).1.periodTradePrices = baseSim.periodTradePrices :=
  ⟨rfl, logTrade_invalid_trade_rejected baseSim twoUnitTrade (Or.inl (by decide))⟩

/-- What `logPeriod` does to each metric sink: `profit` receives the money
row, `ohlc` the (possibly undefined) `ohlc()` row, `volume` the
`(period, count)` row, and `effalloc` the efficiency row exactly when the
memoized maximum gains are positive. -/
theorem logPeriod_logs (sim : SimState) :
    (logPeriod sim).logs.profit =
      writeTo sim.logs.profit
        (some ((sim.pool.agents.map (fun A => A.inventory.money)).map Cell.num)) ∧
    (logPeriod sim).logs.ohlc = writeTo sim.logs.ohlc (ohlcRowOf sim) ∧
    (logPeriod sim).logs.volume =
      writeTo sim.logs.volume
        (some [Cell.num sim.period, Cell.num sim.periodTradePrices.length]) ∧
    (logPeriod sim).logs.effalloc =
      writeTo sim.logs.effalloc
        (if 0 < (getMaximumPossibleGainsFromTrade sim).1 then
          some [Cell.num sim.period,
                Cell.num (100 * ((sim.pool.agents.map (fun A => A.inventory.money)).sum /
                  (getMaximumPossibleGainsFromTrade sim).1))]
         else none) ∧
    (logPeriod sim).periodTradePrices = [] := by
  unfold logPeriod
  dsimp only
  split
  · rename_i heq
    have h0 : sim.logs.effalloc = none := heq
    refine ⟨rfl, rfl, rfl, ?_, rfl⟩
    rw [h0]
    rfl
  · rename_i lg heq
    have h0 : sim.logs.effalloc = some lg := heq
    split
    · refine ⟨rfl, rfl, rfl, rfl, rfl⟩
    · refine ⟨rfl, rfl, rfl, ?_, rfl⟩
      show sim.logs.effalloc = writeTo sim.logs.effalloc none
      rw [h0]
      rfl

/-- C5: in a period whose PriceSequence is empty, period-end logging writes
no row to the `ohlc` log while the `volume` log receives exactly
`(period, 0)`; when the PriceSequence is non-empty the `ohlc` row is
`(period, first, max, min, last)` — the third and fourth cells really are
the maximum and minimum of the period's prices. -/
theorem logPeriod_ohlc_volume_rows (sim : SimState) (g v : SimLog)
    (hg : sim.logs.ohlc = some g) (hv : sim.logs.volume = some v) :
    (sim.periodTradePrices = [] →
      (logPeriod sim).logs.ohlc = some g ∧
      (logPeriod sim).logs.volume =
        some (v.write (some [Cell.num sim.period, Cell.num 0]))) ∧
    (∀ p ps, sim.periodTradePrices = p :: ps →
      ((logPeriod sim).logs.ohlc = some (g.write (some
          [Cell.num sim.period, Cell.num p, Cell.num (ps.foldl max p),
           Cell.num (ps.foldl min p), Cell.num ((p :: ps).getLastD 0)])) ∧
       (logPeriod sim).logs.volume = some (v.write (some
          [Cell.num sim.period, Cell.num ((p :: ps).length : ℚ)])) ∧
       (ps.foldl max p ∈ p :: ps ∧ ∀ x ∈ p :: ps, x ≤ ps.foldl max p) ∧
       (ps.foldl min p ∈ p :: ps ∧ ∀ x ∈ p :: ps, ps.foldl min p ≤ x))) := by
  have hl := logPeriod_logs sim
  constructor
  · intro h0
    constructor
    · rw [hl.2.1, hg]
      unfold ohlcRowOf
      rw [h0]
      rfl
    · rw [hl.2.2.1, hv, h0]
      simp [writeTo]
  · intro p ps hps
    refine ⟨?_, ?_, ⟨foldl_max_mem p ps, le_foldl_max p ps⟩,
      ⟨foldl_min_mem p ps, foldl_min_le p ps⟩⟩
    · rw [hl.2.1, hg]
      unfold ohlcRowOf
      rw [hps]
      rfl
    · rw [hl.2.2.1, hv, hps]
      rfl

/-- C5 witness: with trades at 50, 30, 70 in period 2 the `ohlc` row is
`(2, 50, 70, 30, 70)` and the `volume` row is `(2, 3)`; with no trades the
`ohlc` log is untouched and `volume` receives `(2, 0)`. -/
theorem logPeriod_ohlc_volume_rows_witness :
    pricedSim.periodTradePrices = [50, 30, 70] ∧
    quietPeriodSim.periodTradePrices = [] ∧
    ((logPeriod pricedSim).logs.ohlc = some (SimLog.write ⟨[]⟩ (some
        [Cell.num 2, Cell.num 50, Cell.num ([30, 70].foldl max 50),
         Cell.num ([30, 70].foldl min 50), Cell.num (([50, 30, 70] : List ℚ).getLastD 0)])) ∧
      (logPeriod pricedSim).logs.volume = some (SimLog.write ⟨[]⟩ (some
        [Cell.num 2, Cell.num (([50, 30, 70] : List ℚ).length : ℚ)]))) ∧
    ((logPeriod quietPeriodSim).logs.ohlc = some ⟨[]⟩ ∧
      (logPeriod quietPeriodSim).logs.volume =
        some (SimLog.write ⟨[]⟩ (some [Cell.num 2, Cell.num 0]))) := by
  have h1 := (logPeriod_ohlc_volume_rows pricedSim ⟨[]⟩ ⟨[]⟩ rfl rfl).2 50 [30, 70] rfl
  have h2 := (logPeriod_ohlc_volume_rows quietPeriodSim ⟨[]⟩ ⟨[]⟩ rfl rfl).1 rfl
  exact ⟨rfl, rfl, ⟨h1.1, h1.2.1⟩, h2⟩

/-- C6: at period end an efficiency-of-allocation row is written exactly
when the (memoized) maximum possible gains from trade are positive, and the
value written is `100 × (sum of all agents' inventory.money) / maxGains`. -/
theorem logPeriod_effalloc_iff_positive (sim : SimState) (e : SimLog)
    (he : sim.logs.effalloc = some e) :
    (logPeriod sim).logs.effalloc =
      some (e.write (if 0 < (getMaximumPossibleGainsFromTrade sim).1 then
        some [Cell.num sim.period,
              Cell.num (100 * ((sim.pool.agents.map (fun A => A.inventory.money)).sum /
                (getMaximumPossibleGainsFromTrade sim).1))]
        else none)) ∧
    ((logPeriod sim).logs.effalloc ≠ some e ↔
      0 < (getMaximumPossibleGainsFromTrade sim).1) := by
  have hl := (logPeriod_logs sim).2.2.2.1
  rw [he] at hl
  constructor
  · rw [hl]
    rfl
  · rw [hl]
    by_cases hpos : 0 < (getMaximumPossibleGainsFromTrade sim).1
    · rw [if_pos hpos]
      simp only [hpos, iff_true]
      intro hcontra
      simp [writeTo, SimLog.write] at hcontra
      have h2 := congrArg SimLog.rows hcontra
      simp at h2
    · rw [if_neg hpos]
      simp [writeTo, SimLog.write, hpos]

/-- C6 witness: with two agents holding 30 money each and maximum gains 60,
the period-2 efficiency row is `(2, 100)`. -/
theorem logPeriod_effalloc_iff_positive_witness :
    pricedSim.logs.effalloc = some (⟨[]⟩ : SimLog) ∧
    (getMaximumPossibleGainsFromTrade pricedSim).1 = 60 ∧
    (logPeriod pricedSim).logs.effalloc = some ⟨[[Cell.num 2, Cell.num 100]]⟩ ∧
    ((logPeriod pricedSim).logs.effalloc ≠ some (⟨[]⟩ : SimLog)) := by
  have h := logPeriod_effalloc_iff_positive pricedSim ⟨[]⟩ rfl
  refine ⟨rfl, by with_unfolding_all decide, ?_, h.2.mpr (by with_unfolding_all decide)⟩
  rw [h.1]
  with_unfolding_all decide

/-- Once the getter has run, the memo field holds exactly the value it
returned. -/
theorem getMaxGains_memo_set (sim : SimState) :
    (getMaximumPossibleGainsFromTrade sim).2.maximumPossibleGainsFromTrade =
      some (getMaximumPossibleGainsFromTrade sim).1 := by
  unfold getMaximumPossibleGainsFromTrade
  split
  · rename_i v hv
    split
    · exact hv
    · rfl
  · rfl

/-- A truthy (nonzero) memo is returned as-is, whatever the configuration
now says. -/
theorem getMaxGains_of_memo_nonzero (s : SimState) (r : ℚ)
    (hm : s.maximumPossibleGainsFromTrade = some r) (hr : r ≠ 0) :
    (getMaximumPossibleGainsFromTrade s).1 = r := by
  unfold getMaximumPossibleGainsFromTrade
  rw [hm]
  dsimp only
  rw [if_pos hr]

/-- C3 (amended): `getMaximumPossibleGainsFromTrade` is permutation-invariant
in the configured `buyerValues`/`sellerCosts` arrays, and — provided the
first call's value is nonzero, which is every case where a profitable pair
exists — repeated calls return the first call's value without recomputation
even if the configuration is mutated between calls.  (A first value of 0 is
falsy, is not treated as a hit by the memo guard, and is recomputed from the
current configuration on each call; see the counterexample.) -/
theorem maxGains_perm_invariant_and_memo (v v' c c' : List ℚ) (hv : v.Perm v')
    (hc : c.Perm c') (sim : SimState) (newConfig : SimConfig)
    (hnz : (getMaximumPossibleGainsFromTrade sim).1 ≠ 0) :
    computeMaxGains v c = computeMaxGains v' c' ∧
    (getMaximumPossibleGainsFromTrade
        { (getMaximumPossibleGainsFromTrade sim).2 with config := newConfig }).1 =
      (getMaximumPossibleGainsFromTrade sim).1 := by
  constructor
  · unfold computeMaxGains sortDescending sortAscending
    rw [insertionSort_perm_invariant v v' hv, insertionSort_perm_invariant c c' hc]
  · exact getMaxGains_of_memo_nonzero _ _ (getMaxGains_memo_set sim) hnz

/-- C3 witness: on the base simulation (maximum gains 60), a second call
after swapping the configuration still returns 60, and the computation is
permutation-invariant on concrete lists. -/
theorem maxGains_perm_invariant_and_memo_witness :
    ([80, 60] : List ℚ).Perm [60, 80] ∧
    ([20, 30] : List ℚ).Perm [30, 20] ∧
    (getMaximumPossibleGainsFromTrade baseSim).1 ≠ 0 ∧
    (computeMaxGains [80, 60] [20, 30] = computeMaxGains [60, 80] [30, 20] ∧
      (getMaximumPossibleGainsFromTrade
          { (getMaximumPossibleGainsFromTrade baseSim).2 with config := mutatedGainsConfig }).1 =
        (getMaximumPossibleGainsFromTrade baseSim).1) := by
  have hv : ([80, 60] : List ℚ).Perm [60, 80] := List.Perm.swap 60 80 []
  have hc : ([20, 30] : List ℚ).Perm [30, 20] := List.Perm.swap 30 20 []
  have hnz : (getMaximumPossibleGainsFromTrade baseSim).1 ≠ 0 := by
    with_unfolding_all decide
  exact ⟨hv, hc, hnz,
    maxGains_perm_invariant_and_memo [80, 60] [60, 80] [20, 30] [30, 20] hv hc
      baseSim mutatedGainsConfig hnz⟩

/-- C3 counterexample: when the first call returns 0 (buyer value 1 below
seller cost 5), the 0 is stored but is falsy, so a second call after the
configuration is mutated (buyer value raised to 10) RECOMPUTES and returns
5 ≠ 0 — repeated calls do not always return the first call's value. -/
theorem maxGains_memo_zero_counterexample :
    (getMaximumPossibleGainsFromTrade zeroGainsSim).1 = 0 ∧
    (getMaximumPossibleGainsFromTrade
        { (getMaximumPossibleGainsFromTrade zeroGainsSim).2 with
            config := mutatedGainsConfig }).1 = 5 ∧
    ((5 : ℚ) ≠ 0) := by
  refine ⟨by with_unfolding_all decide, by with_unfolding_all decide, by decide⟩

/-- C7: for a valid single-unit trade (one unit, one buyer slot, one seller
slot, resolvable identities, truthy price, trade log enabled) the row
written is `(period, t, t − period × periodDuration, price, buyerAgentId,
buyer's unit value at current inventory, value − price, sellerAgentId,
seller's unit cost at current inventory, price − cost)`, the price is
appended to the PriceSequence, and no error is thrown. -/
theorem logTrade_single_unit_row (sim : SimState) (ts : TradeSpec)
    (idCol bi si buyerid sellerid : ℕ) (buyer seller : Agent) (tl : SimLog)
    (hic : sim.xMarket.idCol = some idCol)
    (hq : ts.totalQ = 1)
    (hbA : ts.buyA = [bi]) (hsA : ts.sellA = [si])
    (hbid : lookupMarketId sim.xMarket idCol bi = some buyerid)
    (hsid : lookupMarketId sim.xMarket idCol si = some sellerid)
    (hp : ts.prices.head?.getD 0 ≠ 0)
    (hbuyer : sim.pool.agentsById buyerid = some buyer)
    (hseller : sim.pool.agentsById sellerid = some seller)
    (htl : sim.logs.trade = some tl) :
    (logTrade sim ts).2 = none ∧
    (logTrade sim ts).1.periodTradePrices =
      sim.periodTradePrices ++ [ts.prices.head?.getD 0] ∧
    (logTrade sim ts).1.logs.trade = some (tl.write (some
      [Cell.num sim.period, Cell.num ts.t,
       Cell.num (ts.t - sim.period * sim.periodDuration),
       Cell.num (ts.prices.head?.getD 0), Cell.num buyerid,
       Cell.num (buyer.unitValue buyer.inventory),
       Cell.num (buyer.unitValue buyer.inventory - ts.prices.head?.getD 0),
       Cell.num sellerid, Cell.num (seller.unitCost seller.inventory),
       Cell.num (ts.prices.head?.getD 0 - seller.unitCost seller.inventory)])) := by
  unfold logTrade
  rw [hic]
  dsimp only
  rw [if_neg (by simp [hq, hbA, hsA])]
  rw [hbA, hsA]
  simp only [List.head?_cons, Option.some_bind, hbid, hsid]
  rw [if_neg hp]
  rw [hbuyer, hseller]
  dsimp only
  rw [htl]
  exact ⟨rfl, rfl, rfl⟩

/-- C7 witness: a trade at price 50 at t = 4 of period 3 (duration 1)
between the buyer with value 80 and the seller with cost 20 yields the row
`(3, 4, 1, 50, 10, 80, 30, 20, 20, 30)` and appends 50 to the
PriceSequence. -/
theorem logTrade_single_unit_row_witness :
    unitTrade.totalQ = 1 ∧
    unitTrade.prices.head?.getD 0 ≠ 0 ∧
    ((logTrade tradingSim unitTrade).2 = none ∧
     (logTrade tradingSim unitTrade).1.periodTradePrices = [50] ∧
     (logTrade tradingSim unitTrade).1.logs.trade = some ⟨[
        [Cell.num 3, Cell.num 4, Cell.num 1, Cell.num 50, Cell.num 10,
         Cell.num 80, Cell.num 30, Cell.num 20, Cell.num 20, Cell.num 30]]⟩) := by
  have h := logTrade_single_unit_row tradingSim unitTrade 0 0 1 10 20
    buyerTen sellerTwenty ⟨[]⟩ rfl rfl rfl rfl rfl rfl
    (by with_unfolding_all decide) rfl rfl rfl
  refine ⟨rfl, by with_unfolding_all decide, h.1, ?_, ?_⟩
  · rw [h.2.1]
    with_unfolding_all rfl
  · rw [h.2.2]
    with_unfolding_all rfl

/-- C8: for every configuration with `periods = N` and every behaviour of
the external substrate, if `run({sync:true})` completes without a thrown
error starting from a freshly constructed simulation (period counter 0),
then afterwards the period counter equals `N`, and during the run it took
exactly the values `1, 2, ..., N` in order, once each — incremented by
exactly one per completed period, never decremented, skipped or repeated. -/
theorem run_sync_period_counter (O : PoolRunOracle) (sim : SimState) (N : ℕ)
    (h0 : sim.period = 0) (hN : sim.config.periods = N)
    (hok : (runSyncLoop O sim).2.2 = none) :
    (runSyncLoop O sim).1.period = N ∧
    (runSyncLoop O sim).2.1 = List.range' 1 N := by
  unfold runSyncLoop at hok ⊢
  rw [h0, hN] at hok ⊢
  simp only [Nat.sub_zero] at hok ⊢
  have h := runSyncFuel_ok O N sim (by rw [h0, hN]; omega) (by omega) hok
  rw [hN, h0] at h
  simpa using h

/-- C8 witness: a quiet three-period synchronous run ends with the period
counter at 3, having taken the values `[1, 2, 3]`. -/
theorem run_sync_period_counter_witness :
    baseSim.period = 0 ∧
    baseSim.config.periods = 3 ∧
    (runSyncLoop quietOracle baseSim).2.2 = none ∧
    ((runSyncLoop quietOracle baseSim).1.period = 3 ∧
     (runSyncLoop quietOracle baseSim).2.1 = List.range' 1 3) := by
  have hok : (runSyncLoop quietOracle baseSim).2.2 = none := by
    with_unfolding_all rfl
  exact ⟨rfl, rfl, hok, run_sync_period_counter quietOracle baseSim 3 rfl rfl hok⟩
